import Mathlib

set_option maxRecDepth 4000000
set_option maxHeartbeats 2000000

/-!
Verification of the spatial-index core of `ray_ruster`.

Shallow embedding conventions:
* `f64` is modelled by `ℚ` (exact arithmetic).  Where the Rust code relies on
  IEEE-754 special values this is noted at the definition: in `ℚ` division by
  zero yields `0`, while Rust produces `±inf`/`NaN`.
* `Position` and `Direction` (both 3-vectors, `src/geometry/types.rs`) are
  modelled by `Vec3 := Fin 3 → ℚ`.
* Fallible operations (`unwrap`, panicking indexing, the non-terminating
  construction recursion) are modelled with `Option`; the construction
  recursion takes a fuel parameter because, as proved below, it genuinely
  diverges on some inputs.
* `std::collections::BinaryHeap` (with the reversed comparator of
  `BoxIntersect`, giving a min-heap on `distance`) is modelled by a list with
  `push` = append and `pop` = remove the first entry with minimal distance.
  Rust leaves the pop order of equal elements unspecified; this model's
  tie-break (earliest pushed wins) agrees with the behaviour of Rust's
  `BinaryHeap` on the concrete traversals evaluated below (equal elements do
  not sift above one another).
-/

namespace RayRuster

/-- Three-component vector over `ℚ`, standing for `nalgebra` `Point3<f64>` /
`Vector3<f64>`. -/
abbrev Vec3 := Fin 3 → ℚ

/-- Literal vector constructor.  (Written with `if` rather than vector
notation so that concrete computations reduce inside the kernel.) -/
def v3 (x y z : ℚ) : Vec3 := fun i => if i = 0 then x else if i = 1 then y else z

/-- Literal constructor for a `[Position; 2]` bounds array. -/
def pair (a b : Vec3) : Fin 2 → Vec3 := fun i => if i = 0 then a else b

theorem v3_zero (x y z : ℚ) : v3 x y z 0 = x := rfl

theorem v3_one (x y z : ℚ) : v3 x y z 1 = y := rfl

theorem v3_two (x y z : ℚ) : v3 x y z 2 = z := rfl

theorem pair_zero (a b : Vec3) : pair a b 0 = a := rfl

theorem pair_one (a b : Vec3) : pair a b 1 = b := rfl

/-- Componentwise addition. -/
def addV (a b : Vec3) : Vec3 := fun i => a i + b i

/-- Componentwise subtraction. -/
def subV (a b : Vec3) : Vec3 := fun i => a i - b i

/-- Scalar multiplication. -/
def smulV (c : ℚ) (a : Vec3) : Vec3 := fun i => c * a i

/-- Dot product. -/
def dotV (a b : Vec3) : ℚ := a 0 * b 0 + a 1 * b 1 + a 2 * b 2

/-- Cross product. -/
def crossV (a b : Vec3) : Vec3 :=
  v3 (a 1 * b 2 - a 2 * b 1) (a 2 * b 0 - a 0 * b 2) (a 0 * b 1 - a 1 * b 0)

/-- Componentwise absolute value (`nalgebra` `abs`). -/
def absV (a : Vec3) : Vec3 := fun i => |a i|

/-- Componentwise minimum (`nalgebra` `inf`). -/
def infV (a b : Vec3) : Vec3 := fun i => min (a i) (b i)

/-- Componentwise maximum (`nalgebra` `sup`). -/
def supV (a b : Vec3) : Vec3 := fun i => max (a i) (b i)

/-- Squared Euclidean norm. -/
def normSqV (a : Vec3) : ℚ := dotV a a

/-- Model of `nalgebra`'s `normalize`.  The source divides by the Euclidean
norm `‖a‖` (an irrational square root); we divide by the squared norm
`‖a‖²`, also a positive scalar when `a ≠ 0`.  Every use of a normalized
vector in this code base is a comparison that is homogeneous of degree one
in the vector, so positive rescaling never changes a branch; and for `a = 0`
both the IEEE `NaN` components and the `0` components produced here make
every separating-axis comparison fail, i.e. the degenerate axis separates in
neither model. -/
def normalizeV (a : Vec3) : Vec3 := fun i => a i / normSqV a

/-- Model of `src/geometry/bounding_box.rs`: `AxisAlignedBoundingBox`. -/
structure AxisAlignedBoundingBox where
  bounds : Fin 2 → Vec3
  dim : Vec3
  center : Vec3
  extent : Vec3
deriving DecidableEq

namespace AxisAlignedBoundingBox

/-- Model of `AxisAlignedBoundingBox::from_bounds`.  `nalgebra::center` is the
midpoint of the two corners. -/
def fromBounds (bounds : Fin 2 → Vec3) : AxisAlignedBoundingBox :=
  let c : Vec3 := fun i => (bounds 0 i + bounds 1 i) / 2
  { bounds := bounds
    dim := subV (bounds 1) (bounds 0)
    center := c
    extent := subV (bounds 1) c }

/-- Model of `AxisAlignedBoundingBox::new`: tightest box around a point set, as
componentwise min/max folds seeded with the first vertex.  Rust panics on an
empty vector (`vertices[0]`); that is modelled by `none`. -/
def new (vertices : List Vec3) : Option AxisAlignedBoundingBox :=
  match vertices with
  | [] => none
  | v0 :: _ =>
    let min := vertices.foldl (fun m v => infV m v) v0
    let max := vertices.foldl (fun m v => supV m v) v0
    some (fromBounds (pair min max))

/-- Model of `get_dimension`. -/
def getDimension (b : AxisAlignedBoundingBox) (i : Fin 3) : ℚ := b.dim i

/-- Model of `width`. -/
def width (b : AxisAlignedBoundingBox) : ℚ := b.dim 0

/-- Model of `height`. -/
def height (b : AxisAlignedBoundingBox) : ℚ := b.dim 1

/-- Model of `length`. -/
def length (b : AxisAlignedBoundingBox) : ℚ := b.dim 2

/-- Model of `largest_dim`. -/
def largestDim (b : AxisAlignedBoundingBox) : Fin 3 :=
  if b.width > b.length ∧ b.width > b.height then 0
  else if b.height > b.length then 1
  else 2

/-- Model of `split`: clamp axis `dim` to `at'` for the left box's max and the right
box's min; `None` when `at'` lies outside the box on that axis. -/
def split (b : AxisAlignedBoundingBox) (dim : Fin 3) (at' : ℚ) :
    Option (AxisAlignedBoundingBox × AxisAlignedBoundingBox) :=
  let min := b.bounds 0
  let max := b.bounds 1
  let atMin := Function.update min dim at'
  let atMax := Function.update max dim at'
  if min dim > at' ∨ at' > max dim then none
  else some (fromBounds (pair min atMax), fromBounds (pair atMin max))

/-- Model of `projected_radius`: box half-width along an arbitrary axis. -/
def projectedRadius (b : AxisAlignedBoundingBox) (axis : Vec3) : ℚ :=
  dotV b.extent (absV axis)

/-- The `project` helper of `intersect_triangle`: min/max of the projections
of the three given points on `axis`.  The source folds over the points with
`±INFINITY` sentinels; on the (always non-empty) three-point inputs used in
the source this equals the plain min/max below. -/
def project3 (p0 p1 p2 : Vec3) (axis : Vec3) : ℚ × ℚ :=
  (min (min (dotV axis p0) (dotV axis p1)) (dotV axis p2),
   max (max (dotV axis p0) (dotV axis p1)) (dotV axis p2))

/-- Model of `AxisAlignedBoundingBox::intersect_triangle`: the 13-axis separating-axis
test (3 box normals, the triangle normal, 9 edge cross products). -/
def intersectTriangle (b : AxisAlignedBoundingBox) (t0 t1 t2 : Vec3)
    (triangleNormal : Option Vec3) : Bool :=
  -- box normals
  let boxNormals : List Vec3 := [v3 1 0 0, v3 0 1 0, v3 0 0 1]
  let boxAxisSeparates : Bool :=
    (List.finRange 3).any fun i =>
      let mm := project3 t0 t1 t2 (boxNormals.getD i.val (v3 0 0 0))
      mm.2 < b.bounds 0 i ∨ mm.1 > b.bounds 1 i
  if boxAxisSeparates then false
  else
    let u0 := subV t0 b.center
    let u1 := subV t1 b.center
    let u2 := subV t2 b.center
    -- triangle normal
    let n := match triangleNormal with
      | some v => v
      | none => normalizeV (crossV (subV t1 t0) (subV t2 t0))
    let triangleProjection := dotV n u0
    let r := b.projectedRadius n
    if |triangleProjection| > r then false
    else
      -- nine edge cross products
      let triangleEdges : List Vec3 := [subV t1 t0, subV t2 t1, subV t0 t2]
      let edgeSeparates : Bool :=
        triangleEdges.any fun edge =>
          boxNormals.any fun boxNormal =>
            let axis := normalizeV (crossV edge boxNormal)
            let r := b.projectedRadius axis
            let mm := project3 u0 u1 u2 axis
            r < mm.1 ∨ -r > mm.2
      if edgeSeparates then false else true

end AxisAlignedBoundingBox

/-- Model of `src/geometry/ray.rs`: `Ray`. -/
structure Ray where
  position : Vec3
  direction : Vec3
  invDirection : Vec3
  directionSign : Fin 3 → Fin 2
deriving DecidableEq

namespace Ray

/-- Model of `Ray::new`.  Rust computes `1.0 / direction[i]`, which is `±inf` for a
zero component; over `ℚ` the same expression is `0`.  Theorems whose meaning
depends on the slab geometry therefore restrict to directions with nonzero
components; all concrete traversals below use such directions. -/
def new (position direction : Vec3) : Ray :=
  let iD : Vec3 := fun i => 1 / direction i
  { position := position
    direction := direction
    invDirection := iD
    directionSign := fun i => if iD i < 0 then 1 else 0 }

/-- The Möller–Trumbore determinant of `Ray::intersect_triangle`. -/
def mtDeterminant (r : Ray) (t0 t1 t2 : Vec3) : ℚ :=
  let u := subV t1 t0
  let v := subV t2 t0
  let p := crossV r.direction v
  dotV u p

/-- Model of `Ray::intersect_triangle` (Möller–Trumbore).  Note the source rejects
only `determinant < 0.0`, not `determinant <= 0.0`; for a zero determinant
Rust computes `inv_determinant = 1.0/0.0 = inf` and the subsequent
comparisons involve `inf`/`NaN`.  In this `ℚ` model `1/0 = 0`, and on the
degenerate inputs exhibited below both models fall through every rejection
test and return a hit. -/
def intersectTriangle (r : Ray) (t0 t1 t2 : Vec3) :
    Option (Vec3 × (ℚ × ℚ)) :=
  let u := subV t1 t0
  let v := subV t2 t0
  let p := crossV r.direction v
  let determinant := dotV u p
  if determinant < 0 then none
  else
    let invDeterminant := 1 / determinant
    let w := subV r.position t0
    let distU := dotV w p * invDeterminant
    if distU < 0 ∨ distU > 1 then none
    else
      let q := crossV w u
      let distV := dotV r.direction q * invDeterminant
      if distV < 0 ∨ distU + distV > 1 then none
      else
        let distW := dotV v q * invDeterminant
        if distW < 0 then none
        else some (addV r.position (smulV distW r.direction), (distU, distV))

/-- Model of `Ray::min_max_intersection`: the per-axis slab bounds, with the near/far
corner picked through the precomputed sign. -/
def minMaxIntersection (r : Ray) (bounds : Fin 2 → Vec3) (i : Fin 3) :
    ℚ × ℚ :=
  ((bounds (r.directionSign i) i - r.position i) * r.invDirection i,
   (bounds (1 - r.directionSign i) i - r.position i) * r.invDirection i)

/-- Model of `Ray::intersect_box`: the slab method, literal transcription of the
early-return structure of the source. -/
def intersectBox (r : Ray) (bounds : Fin 2 → Vec3) : Option ℚ :=
  let t0 := r.minMaxIntersection bounds 0
  let tmin := t0.1
  let tmax := t0.2
  let ty := r.minMaxIntersection bounds 1
  let tymin := ty.1
  let tymax := ty.2
  if tmin > tymax ∨ tymin > tmax then none
  else
    let tmin := if tymin > tmin then tymin else tmin
    let tmax := if tymax < tmax then tymax else tmax
    let tz := r.minMaxIntersection bounds 2
    let tzmin := tz.1
    let tzmax := tz.2
    if tmin > tzmax ∨ tzmin > tmax then none
    else
      let tmin := if tzmin > tmin then tzmin else tmin
      let tmax := if tzmax < tmax then tzmax else tmax
      if tmin ≥ 0 then some tmin
      else if tmax < 0 then none
      else some tmax

/-- The merged slab entry distance: running max of the per-axis minima. -/
def slabEntry (r : Ray) (bounds : Fin 2 → Vec3) : ℚ :=
  max (max (r.minMaxIntersection bounds 0).1 (r.minMaxIntersection bounds 1).1)
    (r.minMaxIntersection bounds 2).1

/-- The merged slab exit distance: running min of the per-axis maxima. -/
def slabExit (r : Ray) (bounds : Fin 2 → Vec3) : ℚ :=
  min (min (r.minMaxIntersection bounds 0).2 (r.minMaxIntersection bounds 1).2)
    (r.minMaxIntersection bounds 2).2

end Ray

/-- Model of `src/geometry/types.rs`: `Triangle = [usize; 3]`. -/
abbrev Triangle := Fin 3 → ℕ

/-- Model of `src/geometry/mesh.rs`: the fields of `Mesh` used by the kd-tree
construction (`vertices`, `triangles`, `triangle_normals`). -/
structure Mesh where
  vertices : List Vec3
  triangles : List Triangle
  triangleNormals : List Vec3

/-- Model of `src/geometry/kdtree.rs`: `KdTree`.  `left`/`right` are the children,
`verticesIndex`/`triangleIndex` the leaf payload; a node is a leaf iff
`verticesIndex` is present (`KdTree::is_leaf`). -/
inductive KdTree where
  | mk (boundingBox : AxisAlignedBoundingBox)
      (left : Option KdTree) (right : Option KdTree)
      (verticesIndex : Option (List ℕ)) (triangleIndex : Option (List ℕ))

namespace KdTree

/-- Field accessor for `bounding_box`. -/
def boundingBox : KdTree → AxisAlignedBoundingBox
  | mk bb _ _ _ _ => bb

/-- Field accessor for `left`. -/
def left : KdTree → Option KdTree
  | mk _ l _ _ _ => l

/-- Field accessor for `right`. -/
def right : KdTree → Option KdTree
  | mk _ _ r _ _ => r

/-- Field accessor for `vertices_index`. -/
def verticesIndex : KdTree → Option (List ℕ)
  | mk _ _ _ vi _ => vi

/-- Field accessor for `triangle_index`. -/
def triangleIndex : KdTree → Option (List ℕ)
  | mk _ _ _ _ ti => ti

/-- Model of `KdTree::new_node`. -/
def newNode (bb : AxisAlignedBoundingBox) (left right : Option KdTree) :
    KdTree :=
  mk bb left right none none

/-- Model of `KdTree::new_leaf`. -/
def newLeaf (bb : AxisAlignedBoundingBox)
    (verticesIndex triangleIndex : List ℕ) : KdTree :=
  mk bb none none (some verticesIndex) (some triangleIndex)

/-- Model of `KdTree::is_leaf`. -/
def isLeaf (t : KdTree) : Bool := t.verticesIndex.isSome

end KdTree

/-- Model of `get_median`: sort the coordinates along `dim` ascending and take the
element at index `len / 2`.  `sort_unstable_by` is modelled by insertion
sort; on a list of plain `ℚ` values any correct sort produces the same
list.  Rust's out-of-bounds panic on an empty list is modelled by a `0`
default (the construction never calls this with an empty list). -/
def getMedian (dim : Fin 3) (vertices : List Vec3) : ℚ :=
  let largestDimValues := (vertices.map fun x => x dim).insertionSort (· ≤ ·)
  let medianIndex := largestDimValues.length / 2
  largestDimValues.getD medianIndex 0

/-- The "right" vertex partition of `recursion_internal`:
`pos[largest_dim] >= median`. -/
def rightVertices (pairs : List (ℕ × Vec3)) (dim : Fin 3) (median : ℚ) :
    List (ℕ × Vec3) :=
  pairs.filter fun n => median ≤ n.2 dim

/-- The "left" vertex partition of `recursion_internal`:
`pos[largest_dim] < median`. -/
def leftVertices (pairs : List (ℕ × Vec3)) (dim : Fin 3) (median : ℚ) :
    List (ℕ × Vec3) :=
  pairs.filter fun n => n.2 dim < median

/-- The triangle filter of `recursion_internal`: keep the triangles whose
separating-axis test against the child box succeeds.  Rust's panicking
index into `mesh.vertices` / `mesh.triangle_normals` is modelled with a `0`
default. -/
def filterTriangles (mesh : Mesh) (bb : AxisAlignedBoundingBox)
    (pairs : List (ℕ × Triangle)) : List (ℕ × Triangle) :=
  pairs.filter fun n =>
    let t0 := mesh.vertices.getD (n.2 0) (v3 0 0 0)
    let t1 := mesh.vertices.getD (n.2 1) (v3 0 0 0)
    let t2 := mesh.vertices.getD (n.2 2) (v3 0 0 0)
    let nrm := mesh.triangleNormals.getD n.1 (v3 0 0 0)
    bb.intersectTriangle t0 t1 t2 (some nrm)

/-- Model of `recursion_internal` of `KdTree::from_mesh`, with an explicit fuel
parameter: as proved below the Rust recursion does not terminate on every
input, so the embedding returns `none` when the fuel runs out, and `none`
when `bb.split(...).unwrap()` would panic. -/
def recursionInternal (mesh : Mesh) : ℕ → AxisAlignedBoundingBox →
    List (ℕ × Vec3) → List (ℕ × Triangle) → Option KdTree
  | 0, _, _, _ => none
  | fuel + 1, bb, indexVerticesPairs, indexTrianglePairs =>
    -- terminal condition
    if indexVerticesPairs.length < 10 then
      some (KdTree.newLeaf bb (indexVerticesPairs.map fun p => p.1)
        (indexTrianglePairs.map fun p => p.1))
    else
      -- find split plane
      let largestDim := bb.largestDim
      let vertices := indexVerticesPairs.map fun p => p.2
      let median := getMedian largestDim vertices
      -- split points
      let rightVs := rightVertices indexVerticesPairs largestDim median
      let leftVs := leftVertices indexVerticesPairs largestDim median
      -- split bounding boxes (`.unwrap()`)
      match bb.split largestDim median with
      | none => none
      | some (leftBb, rightBb) =>
        -- split triangles
        let leftTriangles := filterTriangles mesh leftBb indexTrianglePairs
        let rightTriangles := filterTriangles mesh rightBb indexTrianglePairs
        -- recursion
        match recursionInternal mesh fuel leftBb leftVs leftTriangles with
        | none => none
        | some leftChild =>
          match recursionInternal mesh fuel rightBb rightVs rightTriangles with
          | none => none
          | some rightChild =>
            some (KdTree.newNode bb (some leftChild) (some rightChild))

/-- Model of `KdTree::from_mesh` (fuel-based): bounding box over all vertices, then
the recursion seeded with the enumerated vertex and triangle lists. -/
def fromMesh (fuel : ℕ) (mesh : Mesh) : Option KdTree :=
  match AxisAlignedBoundingBox.new mesh.vertices with
  | none => none
  | some bb =>
    recursionInternal mesh fuel bb mesh.vertices.enum mesh.triangles.enum

/-- Model of `BoxIntersect`: a traversal distance paired with the node hit. -/
structure BoxIntersect where
  distance : ℚ
  node : KdTree

/-- The `BoxIntersector` trait: how a query intersects a node's box. -/
def BoxIntersector := KdTree → Option BoxIntersect

/-- Model of `RayIntersector::intersect_box`. -/
def rayIntersector (ray : Ray) : BoxIntersector := fun kdtNode =>
  match ray.intersectBox kdtNode.boundingBox.bounds with
  | some distance => some { distance := distance, node := kdtNode }
  | none => none

/-- Model of `TriangleIntersector::intersect_box`: a boolean hit reported with the
constant sentinel distance `1.0`. -/
def triangleIntersector (t0 t1 t2 n : Vec3) : BoxIntersector := fun kdtNode =>
  match kdtNode.boundingBox.intersectTriangle t0 t1 t2 (some n) with
  | true => some { distance := 1, node := kdtNode }
  | false => none

/-- Remove the first entry of minimal `distance` from the frontier list;
model of `BinaryHeap::pop` under the reversed `BoxIntersect` ordering. -/
def popMin : List BoxIntersect → Option (BoxIntersect × List BoxIntersect)
  | [] => none
  | e :: es =>
    match popMin es with
    | none => some (e, [])
    | some (m, rest) =>
      if e.distance ≤ m.distance then some (e, es) else some (m, e :: rest)

/-- Model of `BoxIntersectIter::new`: seed the frontier with the first node when its
box is hit. -/
def newIter (ib : BoxIntersector) (firstNode : KdTree) : List BoxIntersect :=
  match ib firstNode with
  | some intersect => [intersect]
  | none => []

/-- One `BoxIntersectIter::next` call: pop the nearest pending node; yield a
leaf as is; for an internal node test both children and push the hit ones
before yielding it; when neither child is hit the source prints a warning
and returns `None`, i.e. the iteration ends (`none` here means "the call
returned `None`").  The `Option` in the children access models the
`.unwrap()` panics (`panic` outcome). -/
def iterNext (ib : BoxIntersector) (heap : List BoxIntersect) :
    Option (Option (BoxIntersect × List BoxIntersect)) :=
  match popMin heap with
  | none => some none
  | some (curNode, rest) =>
    if curNode.node.isLeaf then some (some (curNode, rest))
    else
      match curNode.node.left, curNode.node.right with
      | some leftChild, some rightChild =>
        match ib leftChild, ib rightChild with
        | none, none => some none  -- "Problem with parent box spliting"
        | some iLeft, none => some (some (curNode, rest ++ [iLeft]))
        | none, some iRight => some (some (curNode, rest ++ [iRight]))
        | some iLeft, some iRight =>
          some (some (curNode, rest ++ [iLeft] ++ [iRight]))
      | _, _ => none  -- `.unwrap()` panic: impossible on well-formed trees

/-- The finite sequence produced by repeatedly calling `next` until it
returns `None` (the standard meaning of an iterator's output), with fuel;
`none` models a panic inside some `next` call. -/
def emit (ib : BoxIntersector) : ℕ → List BoxIntersect →
    Option (List BoxIntersect)
  | 0, _ => some []
  | fuel + 1, heap =>
    match iterNext ib heap with
    | none => none
    | some none => some []
    | some (some (curNode, rest)) =>
      match emit ib fuel rest with
      | none => none
      | some tail => some (curNode :: tail)

/-- Model of `iter_intersect_ray` followed by collecting the whole iteration. -/
def iterIntersectRay (fuel : ℕ) (kdtree : KdTree) (ray : Ray) :
    Option (List BoxIntersect) :=
  emit (rayIntersector ray) fuel (newIter (rayIntersector ray) kdtree)

/-- Model of `BoxIntersectIter::leaves`: the leaf-only filtered view. -/
def leaves (items : List BoxIntersect) : List BoxIntersect :=
  items.filter fun x => x.node.isLeaf

/-- The vertex index lists of all leaves of a tree, in left-to-right order. -/
def leafVertexIndices : KdTree → List ℕ
  | KdTree.mk _ l r vi _ =>
    (vi.getD []) ++
      (match l with | some t => leafVertexIndices t | none => []) ++
      (match r with | some t => leafVertexIndices t | none => [])

/-! ### Concrete inputs used by counterexamples and witnesses -/

/-- An axis-aligned cube `[a, b]³`. -/
def cube (a b : ℚ) : AxisAlignedBoundingBox :=
  AxisAlignedBoundingBox.fromBounds (pair (v3 a a a) (v3 b b b))

/-- A placeholder tree used only as a default for `Option.getD`. -/
def defaultTree : KdTree := KdTree.newLeaf (cube 0 0) [] []

/-- Fifteen points whose kd-tree is: root split at `x = 4` into a 5-point left
leaf and a 10-point right internal node, which splits at `y = 5` into two
5-point leaves. -/
def c2Pts : List Vec3 :=
  [v3 0 4 2, v3 1 4 2, v3 2 4 2, v3 3 4 2, v3 (7/2) 4 2,
   v3 4 0 0, v3 4 1 1, v3 4 2 5, v3 5 (5/2) 3, v3 6 3 1,
   v3 7 5 2, v3 8 6 2, v3 9 7 2, v3 10 (15/2) 2, v3 10 8 2]

/-- The 15-point mesh (no triangles). -/
def c2Mesh : Mesh := { vertices := c2Pts, triangles := [], triangleNormals := [] }

/-- The tree built from `c2Mesh`. -/
def c2Tree : KdTree := (fromMesh 6 c2Mesh).getD defaultTree

/-- A ray starting inside the right-lower leaf of `c2Tree`, moving towards
the left leaf. -/
def c2Ray : Ray := Ray.new (v3 6 2 1) (v3 (-2/5) 1 (1/10))

/-- The distances of the leaves yielded by the ray query on `c2Tree`. -/
def c2LeafDistances : List ℚ :=
  (leaves ((iterIntersectRay 12 c2Tree c2Ray).getD [])).map fun e => e.distance

/-- Ten copies of the origin: the divergence input for construction. -/
def c4Pts : List Vec3 := List.replicate 10 (v3 0 0 0)

/-- The ten-identical-point mesh. -/
def c4Mesh : Mesh := { vertices := c4Pts, triangles := [], triangleNormals := [] }

/-- The ray of the degenerate-triangle counterexample. -/
def c3Ray : Ray := Ray.new (v3 5 5 5) (v3 1 0 0)

/-- First grandchild of the inconsistent tree: its box `[5,6]×[0,1]×[0,1]`
is not hit by `c1Ray`. -/
def c1A1 : KdTree :=
  KdTree.newLeaf (AxisAlignedBoundingBox.fromBounds (pair (v3 5 0 0) (v3 6 1 1))) [] []

/-- Second grandchild of the inconsistent tree: its box `[7,8]×[0,1]×[0,1]`
is not hit by `c1Ray`. -/
def c1A2 : KdTree :=
  KdTree.newLeaf (AxisAlignedBoundingBox.fromBounds (pair (v3 7 0 0) (v3 8 1 1))) [] []

/-- Internal node whose box `[1,2]³` is hit by `c1Ray` although neither
child's box is. -/
def c1A : KdTree := KdTree.newNode (cube 1 2) (some c1A1) (some c1A2)

/-- A leaf whose box `[2,3]³` is hit by `c1Ray` at distance 2. -/
def c1B : KdTree := KdTree.newLeaf (cube 2 3) [0] []

/-- Root of the inconsistent tree: box `[0,10]³`. -/
def c1Root : KdTree := KdTree.newNode (cube 0 10) (some c1A) (some c1B)

/-- Diagonal ray from the origin. -/
def c1Ray : Ray := Ray.new (v3 0 0 0) (v3 1 1 1)

/-! ### C6: `split` succeeds iff the coordinate is inside the box, and the
two boxes agree with the original except at the clamped corner -/

/-- C6: for every box, axis and coordinate, `split` succeeds exactly when
the coordinate lies within `[bounds[0][axis], bounds[1][axis]]` inclusive;
on success `left.bounds[1][axis] = right.bounds[0][axis] = coordinate` and
every other bound coordinate equals the original box's. -/
theorem C6_split_spec (b : AxisAlignedBoundingBox) (dim : Fin 3) (at' : ℚ) :
    ((b.split dim at').isSome ↔ b.bounds 0 dim ≤ at' ∧ at' ≤ b.bounds 1 dim) ∧
    (∀ l r, b.split dim at' = some (l, r) →
      l.bounds 1 dim = at' ∧ r.bounds 0 dim = at' ∧
      l.bounds 0 = b.bounds 0 ∧ r.bounds 1 = b.bounds 1 ∧
      (∀ j, j ≠ dim → l.bounds 1 j = b.bounds 1 j ∧ r.bounds 0 j = b.bounds 0 j)) := by
  unfold AxisAlignedBoundingBox.split
  constructor
  · by_cases h : b.bounds 0 dim > at' ∨ at' > b.bounds 1 dim
    · simp only [if_pos h]
      constructor
      · intro hsome; simp at hsome
      · intro ⟨h1, h2⟩; rcases h with h | h <;> linarith
    · simp only [if_neg h]
      push_neg at h
      simp only [Option.isSome_some, true_iff]
      exact ⟨h.1, h.2⟩
  · intro l r heq
    by_cases h : b.bounds 0 dim > at' ∨ at' > b.bounds 1 dim
    · simp only [if_pos h] at heq; exact absurd heq (by simp)
    · simp only [if_neg h, Option.some.injEq, Prod.mk.injEq] at heq
      obtain ⟨hl, hr⟩ := heq
      subst hl; subst hr
      refine ⟨?_, ?_, ?_, ?_, ?_⟩
      · show pair (b.bounds 0) (Function.update (b.bounds 1) dim at') 1 dim = at'
        rw [pair_one]; exact Function.update_same dim at' (b.bounds 1)
      · show pair (Function.update (b.bounds 0) dim at') (b.bounds 1) 0 dim = at'
        rw [pair_zero]; exact Function.update_same dim at' (b.bounds 0)
      · rfl
      · rfl
      · intro j hj
        constructor
        · show pair (b.bounds 0) (Function.update (b.bounds 1) dim at') 1 j = _
          rw [pair_one]; exact Function.update_noteq hj at' (b.bounds 1)
        · show pair (Function.update (b.bounds 0) dim at') (b.bounds 1) 0 j = _
          rw [pair_zero]; exact Function.update_noteq hj at' (b.bounds 0)

/-- The two boxes of a concrete successful split of `[0,4]³` at `x = 1`. -/
def c6SplitPair : AxisAlignedBoundingBox × AxisAlignedBoundingBox :=
  ((cube 0 4).split 0 1).getD (cube 0 0, cube 0 0)

/-- Witness for C6 at a concrete box and coordinate: the split of `[0,4]³`
at `x = 1` succeeds and clamps exactly the two facing corners. -/
theorem C6_split_spec_witness :
    ((cube 0 4).split 0 1).isSome = true ∧
    c6SplitPair.1.bounds 1 0 = 1 ∧ c6SplitPair.2.bounds 0 0 = 1 ∧
    c6SplitPair.1.bounds 0 = (cube 0 4).bounds 0 ∧
    c6SplitPair.2.bounds 1 = (cube 0 4).bounds 1 :=
  ⟨(C6_split_spec (cube 0 4) 0 1).1.mpr (by with_unfolding_all decide),
    ((C6_split_spec (cube 0 4) 0 1).2 c6SplitPair.1 c6SplitPair.2
      (by with_unfolding_all rfl)).1,
    ((C6_split_spec (cube 0 4) 0 1).2 c6SplitPair.1 c6SplitPair.2
      (by with_unfolding_all rfl)).2.1,
    ((C6_split_spec (cube 0 4) 0 1).2 c6SplitPair.1 c6SplitPair.2
      (by with_unfolding_all rfl)).2.2.1,
    ((C6_split_spec (cube 0 4) 0 1).2 c6SplitPair.1 c6SplitPair.2
      (by with_unfolding_all rfl)).2.2.2.1⟩

/-! ### C8: `largest_dim` tie-breaking -/

/-- A box with `width = height = 5 > length = 3`: the two largest extents
are tied between the x and y axes. -/
def c8Box : AxisAlignedBoundingBox :=
  AxisAlignedBoundingBox.fromBounds (pair (v3 0 0 0) (v3 5 5 3))

/-- Counterexample to C8: on a box whose width equals its height and both
exceed its length, `largest_dim` returns axis 1 (y), not axis 0 (x) as the
claimed x-over-y tie preference requires. -/
theorem C8_counterexample :
    c8Box.width = c8Box.height ∧ c8Box.height > c8Box.length ∧
    c8Box.largestDim ≠ 0 := by with_unfolding_all decide

/-- C8 amended: `largest_dim` returns an axis of greatest extent, but ties
are broken by axis precedence z over y over x (the comparisons in the source
are strict): axis 0 is returned only when the width strictly exceeds both
other extents, and axis 1 only when the height strictly exceeds the length. -/
theorem C8_amended (b : AxisAlignedBoundingBox) :
    (b.dim 0 ≤ b.dim b.largestDim ∧ b.dim 1 ≤ b.dim b.largestDim ∧
      b.dim 2 ≤ b.dim b.largestDim) ∧
    (b.largestDim = 0 → b.dim 1 < b.dim 0 ∧ b.dim 2 < b.dim 0) ∧
    (b.largestDim = 1 → b.dim 2 < b.dim 1) := by
  unfold AxisAlignedBoundingBox.largestDim AxisAlignedBoundingBox.width
    AxisAlignedBoundingBox.height AxisAlignedBoundingBox.length
  split_ifs with h1 h2
  · obtain ⟨ha, hb⟩ := h1
    exact ⟨⟨le_refl _, le_of_lt hb, le_of_lt ha⟩,
      fun _ => ⟨hb, ha⟩, fun h => absurd h (by decide)⟩
  · push_neg at h1
    have h0 : b.dim 0 ≤ b.dim 1 := by
      rcases lt_or_le (b.dim 2) (b.dim 0) with h | h
      · exact h1 h
      · linarith
    exact ⟨⟨h0, le_refl _, le_of_lt h2⟩,
      fun h => absurd h (by decide), fun _ => h2⟩
  · push_neg at h1 h2
    have h0 : b.dim 0 ≤ b.dim 2 := by
      rcases lt_or_le (b.dim 2) (b.dim 0) with h | h
      · linarith [h1 h]
      · exact h
    exact ⟨⟨h0, h2, le_refl _⟩,
      fun h => absurd h (by decide), fun h => absurd h (by decide)⟩

/-- A box with extents `(10, 8, 5)`: its largest axis is x. -/
def c8BigBox : AxisAlignedBoundingBox :=
  AxisAlignedBoundingBox.fromBounds (pair (v3 0 0 0) (v3 10 8 5))

/-- Witness for the amended C8 on a box whose width strictly dominates. -/
theorem C8_amended_witness :
    (c8BigBox.dim 0 ≤ c8BigBox.dim c8BigBox.largestDim ∧
      c8BigBox.dim 1 ≤ c8BigBox.dim c8BigBox.largestDim ∧
      c8BigBox.dim 2 ≤ c8BigBox.dim c8BigBox.largestDim) ∧
    (c8BigBox.dim 1 < c8BigBox.dim 0 ∧ c8BigBox.dim 2 < c8BigBox.dim 0) :=
  ⟨(C8_amended c8BigBox).1, (C8_amended c8BigBox).2.1 (by with_unfolding_all decide)⟩

/-! ### C3: the Möller–Trumbore test and a zero determinant -/

/-- C3 fails on the code: the source rejects only `determinant < 0.0`, so a
degenerate triangle with zero determinant falls through every rejection test
and `intersect_triangle` returns a hit.  (In Rust the returned point and
barycentrics are `NaN`s produced by `0.0 * inf`; in this exact model the
junk values are `0`.  Either way the call returns `Some`, while the claim
and the source's own comment — "Triangle normal and direction are parallel
…" above the `determinant < na::zero()` test — require `None`.) -/
theorem C3_zero_determinant_returns_hit :
    c3Ray.mtDeterminant (v3 0 0 0) (v3 0 0 0) (v3 0 0 0) = 0 ∧
    ((c3Ray.intersectTriangle (v3 0 0 0) (v3 0 0 0) (v3 0 0 0)).map
      fun x => (x.1 0, x.1 1, x.1 2, x.2.1, x.2.2)) =
      some (5, 5, 5, 0, 0) := by
  with_unfolding_all decide

/-! ### C2: leaves are not always yielded in non-decreasing distance order -/

/-- C2 fails on the code: on the tree built from the 15 points of `c2Pts`
and the ray `c2Ray` (origin inside the tree), `leaves()` yields distances
`[5, 3, 3]` — strictly decreasing, not ascending as the claim and the
source's doc comment on `leaves` state.  The far left leaf ties at
distance 5 with the right internal node (the exit distance of the box the
origin sits in equals the entry distance of its sibling) and is popped
first, before the near leaves at distance 3 are even pushed. -/
theorem C2_leaves_out_of_order :
    (fromMesh 6 c2Mesh).isSome = true ∧
    c2LeafDistances = [5, 3, 3] ∧
    ¬ List.Sorted (· ≤ ·) c2LeafDistances := by
  with_unfolding_all decide

/-! ### C1: an internal node with no intersecting child aborts the query -/

/-- Counterexample to C1: with `c1Ray` on `c1Root`, the internal node `c1A`
is popped (its box is hit at distance 1) and neither of its children's boxes
is hit; the iteration then ends at once — the emitted sequence is just the
root — although the leaf `c1B` is hit at distance 2 and was already pending
in the priority queue.  The pending node is never yielded, refuting "other
nodes already pending in the priority queue are still yielded afterwards,
and the whole query is not aborted". -/
theorem C1_counterexample :
    (rayIntersector c1Ray c1Root).isSome = true ∧
    (rayIntersector c1Ray c1A).isSome = true ∧
    (rayIntersector c1Ray c1A1).isSome = false ∧
    (rayIntersector c1Ray c1A2).isSome = false ∧
    c1Ray.intersectBox c1B.boundingBox.bounds = some 2 ∧
    (iterIntersectRay 10 c1Root c1Ray).map
      (fun l => l.map fun e => (e.distance, e.node.isLeaf)) =
      some [(0, false)] := by
  with_unfolding_all decide

/-- C1 amended: when the popped node is internal and neither child's box is
hit by the query, `next` returns `None` immediately: the popped node is not
yielded and the iteration ends, so entries still pending in the priority
queue are not yielded by the rest of the iteration. -/
theorem C1_amended (ib : BoxIntersector) (fuel : ℕ) (heap : List BoxIntersect)
    (cur : BoxIntersect) (rest : List BoxIntersect)
    (hpop : popMin heap = some (cur, rest))
    (hleaf : cur.node.isLeaf = false)
    (l r : KdTree) (hl : cur.node.left = some l) (hr : cur.node.right = some r)
    (hil : ib l = none) (hir : ib r = none) :
    emit ib (fuel + 1) heap = some [] := by
  unfold emit iterNext
  rw [hpop]
  simp only [hleaf, hl, hr, hil, hir, Bool.false_eq_true, if_false]

/-- Witness for the amended C1 at the concrete inconsistent tree: the heap
holding the hit internal node `c1A` (distance 1) and the hit leaf `c1B`
(distance 2) emits nothing further once `c1A` is popped. -/
theorem C1_amended_witness :
    popMin [⟨1, c1A⟩, ⟨2, c1B⟩] =
      some (⟨1, c1A⟩, [⟨2, c1B⟩]) ∧
    emit (rayIntersector c1Ray) 5 [⟨1, c1A⟩, ⟨2, c1B⟩] = some [] :=
  ⟨by with_unfolding_all rfl,
    C1_amended (rayIntersector c1Ray) 4 _ ⟨1, c1A⟩ [⟨2, c1B⟩]
      (by with_unfolding_all rfl) rfl c1A1 c1A2 rfl rfl
      (by with_unfolding_all rfl) (by with_unfolding_all rfl)⟩

/-! ### C7: characterization of the slab-method ray–box intersection -/

theorem if_gt_eq_max (a b : ℚ) : (if b > a then b else a) = max a b := by
  rcases le_or_lt b a with h | h
  · rw [if_neg (not_lt.mpr h), max_eq_left h]
  · rw [if_pos h, max_eq_right h.le]

theorem if_lt_eq_min (a b : ℚ) : (if b < a then b else a) = min a b := by
  rcases le_or_lt a b with h | h
  · rw [if_neg (not_lt.mpr h), min_eq_left h]
  · rw [if_pos h, min_eq_right h.le]

/-- The early-return slab merge over three proper per-axis intervals equals
the case analysis on the merged entry (max of minima) and exit (min of
maxima). -/
theorem slabMerge (n0 f0 n1 f1 n2 f2 : ℚ)
    (h0 : n0 ≤ f0) (h1 : n1 ≤ f1) (h2 : n2 ≤ f2) :
    (if n0 > f1 ∨ n1 > f0 then none
     else
       let tmin1 := if n1 > n0 then n1 else n0
       let tmax1 := if f1 < f0 then f1 else f0
       if tmin1 > f2 ∨ n2 > tmax1 then none
       else
         let tmin := if n2 > tmin1 then n2 else tmin1
         let tmax := if f2 < tmax1 then f2 else tmax1
         if tmin ≥ 0 then some tmin else if tmax < 0 then none else some tmax)
    = (if max (max n0 n1) n2 > min (min f0 f1) f2 then none
       else if 0 ≤ max (max n0 n1) n2 then some (max (max n0 n1) n2)
       else if min (min f0 f1) f2 < 0 then none
       else some (min (min f0 f1) f2)) := by
  simp only [if_gt_eq_max, if_lt_eq_min]
  split_ifs <;>
    first
    | rfl
    | (exfalso
       simp only [not_or, not_lt, not_le, ge_iff_le, sup_lt_iff, lt_inf_iff,
         le_sup_iff, inf_le_iff, inf_lt_iff, lt_sup_iff, sup_le_iff,
         le_inf_iff, max_le_iff, le_min_iff, min_le_iff, le_max_iff,
         max_lt_iff, lt_min_iff, min_lt_iff, lt_max_iff] at *
       casesm* _ ∨ _, _ ∧ _ <;> linarith)

/-- On a box with ordered bounds, each per-axis slab interval produced by
`min_max_intersection` on a freshly constructed ray is proper: the sign
selection picks the near corner first. -/
theorem minMax_le (p d : Vec3) (bounds : Fin 2 → Vec3)
    (hb : ∀ i, bounds 0 i ≤ bounds 1 i) (i : Fin 3) :
    ((Ray.new p d).minMaxIntersection bounds i).1 ≤
      ((Ray.new p d).minMaxIntersection bounds i).2 := by
  show (bounds ((Ray.new p d).directionSign i) i - p i) * (1 / d i) ≤
    (bounds (1 - (Ray.new p d).directionSign i) i - p i) * (1 / d i)
  show (bounds (if 1 / d i < 0 then 1 else 0) i - p i) * (1 / d i) ≤
    (bounds (1 - if 1 / d i < 0 then 1 else 0) i - p i) * (1 / d i)
  rcases lt_or_le (1 / d i) 0 with h | h
  · rw [if_pos h]
    show (bounds 1 i - p i) * (1 / d i) ≤ (bounds 0 i - p i) * (1 / d i)
    exact mul_le_mul_of_nonpos_right (sub_le_sub_right (hb i) (p i)) h.le
  · rw [if_neg (not_lt.mpr h)]
    show (bounds 0 i - p i) * (1 / d i) ≤ (bounds 1 i - p i) * (1 / d i)
    exact mul_le_mul_of_nonneg_right (sub_le_sub_right (hb i) (p i)) h

/-- C7: for every ray (as built by `Ray::new`) and every box satisfying the
bounds invariant, `intersect_box` returns the merged entry distance when it
is non-negative; otherwise the merged exit distance when that is
non-negative (origin inside the box); otherwise no intersection — and no
hit whenever the merged interval is empty. -/
theorem C7_intersect_box_spec (p d : Vec3) (bounds : Fin 2 → Vec3)
    (hb : ∀ i, bounds 0 i ≤ bounds 1 i) :
    (Ray.new p d).intersectBox bounds =
      if (Ray.new p d).slabEntry bounds > (Ray.new p d).slabExit bounds then
        none
      else if 0 ≤ (Ray.new p d).slabEntry bounds then
        some ((Ray.new p d).slabEntry bounds)
      else if (Ray.new p d).slabExit bounds < 0 then none
      else some ((Ray.new p d).slabExit bounds) :=
  slabMerge ((Ray.new p d).minMaxIntersection bounds 0).1
    ((Ray.new p d).minMaxIntersection bounds 0).2
    ((Ray.new p d).minMaxIntersection bounds 1).1
    ((Ray.new p d).minMaxIntersection bounds 1).2
    ((Ray.new p d).minMaxIntersection bounds 2).1
    ((Ray.new p d).minMaxIntersection bounds 2).2
    (minMax_le p d bounds hb 0) (minMax_le p d bounds hb 1)
    (minMax_le p d bounds hb 2)

/-- Witness for C7 on a concrete ray and the unit box. -/
theorem C7_intersect_box_spec_witness :
    (Ray.new (v3 (-1) (1/2) (1/2)) (v3 1 (1/3) (1/4))).intersectBox
        (cube 0 1).bounds =
      if (Ray.new (v3 (-1) (1/2) (1/2)) (v3 1 (1/3) (1/4))).slabEntry
            (cube 0 1).bounds >
          (Ray.new (v3 (-1) (1/2) (1/2)) (v3 1 (1/3) (1/4))).slabExit
            (cube 0 1).bounds then none
      else if 0 ≤ (Ray.new (v3 (-1) (1/2) (1/2)) (v3 1 (1/3) (1/4))).slabEntry
            (cube 0 1).bounds then
        some ((Ray.new (v3 (-1) (1/2) (1/2)) (v3 1 (1/3) (1/4))).slabEntry
          (cube 0 1).bounds)
      else if (Ray.new (v3 (-1) (1/2) (1/2)) (v3 1 (1/3) (1/4))).slabExit
            (cube 0 1).bounds < 0 then none
      else some ((Ray.new (v3 (-1) (1/2) (1/2)) (v3 1 (1/3) (1/4))).slabExit
        (cube 0 1).bounds) :=
  C7_intersect_box_spec (v3 (-1) (1/2) (1/2)) (v3 1 (1/3) (1/4))
    (cube 0 1).bounds (by with_unfolding_all decide)

/-! ### C4: construction does not terminate on ten identical points -/

/-- The bounding box of the ten identical points (a degenerate point box). -/
def c4Bb : AxisAlignedBoundingBox :=
  (AxisAlignedBoundingBox.new c4Pts).getD (cube 0 0)

/-- Counterexample to C4: on ten identical points the split step does not
reduce the point count at all — the median equals the points' shared
coordinate, so the right part (`coordinate >= median`) keeps all ten points
and the left part is empty, refuting "each recursive call strictly reduces
the number of points in the node". -/
theorem C4_counterexample :
    c4Pts.enum.length = 10 ∧
    (rightVertices c4Pts.enum c4Bb.largestDim
        (getMedian c4Bb.largestDim (c4Pts.enum.map fun p => p.2))).length = 10 ∧
    (leftVertices c4Pts.enum c4Bb.largestDim
        (getMedian c4Bb.largestDim (c4Pts.enum.map fun p => p.2))).length = 0 := by
  with_unfolding_all decide

/-- The recursion on ten identical points fails for every fuel bound and
every bounding box: the right-hand recursive call always receives the same
ten pairs again. -/
theorem c4_aux :
    ∀ fuel bb, recursionInternal c4Mesh fuel bb c4Pts.enum [] = none := by
  intro fuel
  induction fuel with
  | zero => intro bb; rfl
  | succ n ih =>
    intro bb
    have hlen : ¬ (c4Pts.enum.length < 10) := by with_unfolding_all decide
    have hmed : ∀ d : Fin 3, getMedian d (c4Pts.enum.map fun p => p.2) = 0 := by
      intro d; fin_cases d <;> with_unfolding_all rfl
    have hright : ∀ d : Fin 3, rightVertices c4Pts.enum d 0 = c4Pts.enum := by
      intro d; fin_cases d <;> with_unfolding_all rfl
    have hleft : ∀ d : Fin 3, leftVertices c4Pts.enum d 0 = [] := by
      intro d; fin_cases d <;> with_unfolding_all rfl
    have hft : ∀ bb' : AxisAlignedBoundingBox,
        filterTriangles c4Mesh bb' [] = [] := fun _ => rfl
    simp only [recursionInternal, if_neg hlen, hmed, hright, hleft, hft]
    rcases hsplit : bb.split bb.largestDim 0 with _ | ⟨lbb, rbb⟩
    · rfl
    · dsimp only
      rw [ih rbb]
      rcases recursionInternal c4Mesh n lbb [] [] with _ | t <;> rfl

/-- C4 amended: construction terminates only while every recursive call
strictly shrinks the vertex list; when at least half the points share the
minimal coordinate on the split axis the right part equals the whole input
and the recursion diverges.  On ten identical points the construction fails
to complete for every fuel bound. -/
theorem C4_amended (fuel : ℕ) : fromMesh fuel c4Mesh = none := by
  have hnew : AxisAlignedBoundingBox.new c4Mesh.vertices = some c4Bb := by
    with_unfolding_all rfl
  unfold fromMesh
  rw [hnew]
  exact c4_aux fuel c4Bb

/-! ### C5: the leaves partition the input vertex indices exactly -/

/-- The two vertex partitions of a node are a permutation of its input:
`coordinate < median` and `coordinate >= median` are complementary. -/
theorem left_append_right_perm (pairs : List (ℕ × Vec3)) (d : Fin 3) (m : ℚ) :
    (leftVertices pairs d m ++ rightVertices pairs d m).Perm pairs := by
  have hq : rightVertices pairs d m =
      pairs.filter fun n => !(decide (n.2 d < m)) := by
    apply List.filter_congr
    intro x _
    by_cases h : x.2 d < m
    · simp [h, not_le.mpr h]
    · simp [h, not_lt.mp h]
  rw [hq]
  exact List.filter_append_perm _ pairs

/-- Whenever the construction recursion completes, the vertex indices in
its leaves are a permutation of the indices it was given. -/
theorem recursion_leaf_indices_perm (mesh : Mesh) :
    ∀ fuel bb pairs tps t, recursionInternal mesh fuel bb pairs tps = some t →
      (leafVertexIndices t).Perm (pairs.map fun p => p.1) := by
  intro fuel
  induction fuel with
  | zero => intro bb pairs tps t h; exact absurd h (by simp [recursionInternal])
  | succ n ih =>
    intro bb pairs tps t h
    rw [recursionInternal] at h
    by_cases hlen : pairs.length < 10
    · rw [if_pos hlen] at h
      obtain rfl := (Option.some.injEq _ _).mp h
      show ((pairs.map fun p => p.1) ++ ([] : List ℕ) ++ ([] : List ℕ)).Perm
        (pairs.map fun p => p.1)
      simp
    · rw [if_neg hlen] at h
      dsimp only at h
      rcases hsplit : bb.split bb.largestDim
          (getMedian bb.largestDim (pairs.map fun p => p.2)) with _ | ⟨lbb, rbb⟩ <;>
        rw [hsplit] at h
      · exact absurd h (by simp)
      · dsimp only at h
        rcases hl : recursionInternal mesh n lbb
            (leftVertices pairs bb.largestDim
              (getMedian bb.largestDim (pairs.map fun p => p.2)))
            (filterTriangles mesh lbb tps) with _ | tl <;> rw [hl] at h
        · exact absurd h (by simp)
        · rcases hr : recursionInternal mesh n rbb
              (rightVertices pairs bb.largestDim
                (getMedian bb.largestDim (pairs.map fun p => p.2)))
              (filterTriangles mesh rbb tps) with _ | tr <;> rw [hr] at h
          · exact absurd h (by simp)
          · dsimp only at h
            obtain rfl := (Option.some.injEq _ _).mp h
            have Pl := ih lbb _ _ tl hl
            have Pr := ih rbb _ _ tr hr
            show ([] ++ leafVertexIndices tl ++ leafVertexIndices tr).Perm _
            rw [List.nil_append]
            refine (Pl.append Pr).trans ?_
            rw [← List.map_append]
            exact (left_append_right_perm pairs _ _).map _

/-- C5: whenever the kd-tree construction completes, every input vertex
index appears in exactly one leaf: the concatenation of all leaf vertex
index lists is a permutation of `0, …, |vertices| − 1`. -/
theorem C5_leaf_indices_partition (mesh : Mesh) (fuel : ℕ) (t : KdTree)
    (h : fromMesh fuel mesh = some t) :
    (leafVertexIndices t).Perm (List.range mesh.vertices.length) := by
  rw [fromMesh] at h
  rcases hbb : AxisAlignedBoundingBox.new mesh.vertices with _ | bb <;>
    rw [hbb] at h
  · exact absurd h (by simp)
  · have := recursion_leaf_indices_perm mesh fuel bb mesh.vertices.enum
      mesh.triangles.enum t h
    rw [show (mesh.vertices.enum.map fun p => p.1) =
        mesh.vertices.enum.map Prod.fst from rfl, List.enum_map_fst] at this
    exact this

/-- Witness for C5 on the 15-point mesh: the tree is built and its leaf
index lists partition `0, …, 14`. -/
theorem C5_leaf_indices_partition_witness :
    fromMesh 6 c2Mesh = some c2Tree ∧
    (leafVertexIndices c2Tree).Perm (List.range c2Mesh.vertices.length) := by
  have hh : fromMesh 6 c2Mesh = some c2Tree := by with_unfolding_all rfl
  exact ⟨hh, C5_leaf_indices_partition c2Mesh 6 c2Tree hh⟩

/-! ### C9: node shape invariant and panic-freedom of the traversal -/

/-- The node-shape invariant of the claim: every node is either an internal
node with both children and no index lists, or a leaf with both index lists
and no children. -/
def wellFormedB : KdTree → Bool
  | KdTree.mk _ left right vi ti =>
    match left, right, vi, ti with
    | some l, some r, none, none => wellFormedB l && wellFormedB r
    | none, none, some _, some _ => true
    | _, _, _, _ => false

/-- A well-formed non-leaf node has both children, and they are well
formed. -/
theorem wellFormed_not_leaf {t : KdTree} (hwf : wellFormedB t = true)
    (hnl : t.isLeaf = false) :
    ∃ l r, t.left = some l ∧ t.right = some r ∧
      wellFormedB l = true ∧ wellFormedB r = true := by
  rcases t with ⟨bb, _ | l, _ | r, _ | vi, _ | ti⟩
  all_goals first
    | exact absurd hwf Bool.false_ne_true
    | exact Bool.noConfusion hnl
    | (have hwf' : (wellFormedB l && wellFormedB r) = true := hwf
       rw [Bool.and_eq_true] at hwf'
       exact ⟨l, r, rfl, rfl, hwf'.1, hwf'.2⟩)

/-- Model of `popMin` returns an element of the list, and a sublist of it. -/
theorem popMin_mem :
    ∀ heap e rest, popMin heap = some (e, rest) →
      e ∈ heap ∧ ∀ x ∈ rest, x ∈ heap := by
  intro heap
  induction heap with
  | nil => intro e rest h; simp [popMin] at h
  | cons a as ih =>
    intro e rest h
    rw [popMin] at h
    cases hp : popMin as with
    | none =>
      rw [hp] at h
      dsimp only at h
      simp only [Option.some.injEq, Prod.mk.injEq] at h
      obtain ⟨rfl, rfl⟩ := h
      exact ⟨List.mem_cons_self a as, by simp⟩
    | some m =>
      obtain ⟨m1, mrest⟩ := m
      rw [hp] at h
      dsimp only at h
      by_cases hle : a.distance ≤ m1.distance
      · rw [if_pos hle] at h
        simp only [Option.some.injEq, Prod.mk.injEq] at h
        obtain ⟨rfl, rfl⟩ := h
        exact ⟨List.mem_cons_self a as, fun x hx => List.mem_cons_of_mem a hx⟩
      · rw [if_neg hle] at h
        simp only [Option.some.injEq, Prod.mk.injEq] at h
        obtain ⟨rfl, rfl⟩ := h
        obtain ⟨hm, hrest⟩ := ih m1 mrest hp
        refine ⟨List.mem_cons_of_mem a hm, fun x hx => ?_⟩
        rcases List.mem_cons.mp hx with rfl | hx
        · exact List.mem_cons_self x as
        · exact List.mem_cons_of_mem a (hrest x hx)

/-- On a frontier of well-formed nodes, one `next` call never panics and
every node it leaves in the frontier is well formed. -/
theorem iterNext_wf (ib : BoxIntersector)
    (hib : ∀ t' bi, ib t' = some bi → bi.node = t')
    (heap : List BoxIntersect)
    (hwf : ∀ e ∈ heap, wellFormedB e.node = true) :
    iterNext ib heap = some none ∨
    ∃ cur rest, iterNext ib heap = some (some (cur, rest)) ∧
      ∀ e ∈ rest, wellFormedB e.node = true := by
  rw [iterNext]
  cases hp : popMin heap with
  | none => exact Or.inl rfl
  | some pr =>
    obtain ⟨cur, rest⟩ := pr
    dsimp only
    obtain ⟨hcur, hrest⟩ := popMin_mem heap cur rest hp
    have hcw := hwf cur hcur
    have hrw : ∀ e ∈ rest, wellFormedB e.node = true :=
      fun e he => hwf e (hrest e he)
    cases hleaf : cur.node.isLeaf with
    | true => exact Or.inr ⟨cur, rest, by rw [if_pos rfl], hrw⟩
    | false =>
      obtain ⟨l, r, hl, hr, hlw, hrw'⟩ := wellFormed_not_leaf hcw hleaf
      rw [if_neg Bool.false_ne_true, hl, hr]
      dsimp only
      cases hil : ib l with
      | none =>
        cases hir : ib r with
        | none => exact Or.inl rfl
        | some iRight =>
          refine Or.inr ⟨cur, rest ++ [iRight], rfl, fun e he => ?_⟩
          rcases List.mem_append.mp he with he | he
          · exact hrw e he
          · obtain rfl := List.mem_singleton.mp he
            rw [hib r e hir]; exact hrw'
      | some iLeft =>
        cases hir : ib r with
        | none =>
          refine Or.inr ⟨cur, rest ++ [iLeft], rfl, fun e he => ?_⟩
          rcases List.mem_append.mp he with he | he
          · exact hrw e he
          · obtain rfl := List.mem_singleton.mp he
            rw [hib l e hil]; exact hlw
        | some iRight =>
          refine Or.inr ⟨cur, rest ++ [iLeft] ++ [iRight], rfl, fun e he => ?_⟩
          rcases List.mem_append.mp he with he | he
          · rcases List.mem_append.mp he with he | he
            · exact hrw e he
            · obtain rfl := List.mem_singleton.mp he
              rw [hib l e hil]; exact hlw
          · obtain rfl := List.mem_singleton.mp he
            rw [hib r e hir]; exact hrw'

/-- On a frontier of well-formed nodes the traversal never panics. -/
theorem emit_ne_none (ib : BoxIntersector)
    (hib : ∀ t' bi, ib t' = some bi → bi.node = t') :
    ∀ n heap, (∀ e ∈ heap, wellFormedB e.node = true) →
      emit ib n heap ≠ none := by
  intro n
  induction n with
  | zero => intro heap _; simp [emit]
  | succ m ih =>
    intro heap hwf
    rw [emit]
    rcases iterNext_wf ib hib heap hwf with hn | ⟨cur, rest, hn, hrw⟩
    · rw [hn]; simp
    · rw [hn]
      dsimp only
      cases he : emit ib m rest with
      | none => exact absurd he (ih rest hrw)
      | some tail => simp

/-- Both concrete intersectors return the queried node itself. -/
theorem rayIntersector_node (ray : Ray) :
    ∀ t' bi, rayIntersector ray t' = some bi → bi.node = t' := by
  intro t' bi h
  rw [rayIntersector] at h
  cases hx : ray.intersectBox t'.boundingBox.bounds with
  | none => rw [hx] at h; exact absurd h (by simp)
  | some d => rw [hx] at h; obtain rfl := (Option.some.injEq _ _).mp h; rfl

/-- C9: every tree built by `from_mesh` satisfies the node-shape invariant —
internal nodes have both children and no index lists, leaves have both index
lists and no children — and consequently the traversal's unconditional child
accesses never panic, for any intersector that reports the queried node. -/
theorem C9_node_shape (mesh : Mesh) (fuel : ℕ) (t : KdTree)
    (h : fromMesh fuel mesh = some t) :
    wellFormedB t = true ∧
    ∀ ib : BoxIntersector, (∀ t' bi, ib t' = some bi → bi.node = t') →
      ∀ n, emit ib n (newIter ib t) ≠ none := by
  have hwf : wellFormedB t = true := by
    have main : ∀ fuel bb pairs tps t',
        recursionInternal mesh fuel bb pairs tps = some t' →
          wellFormedB t' = true := by
      intro fuel
      induction fuel with
      | zero => intro bb pairs tps t' h'; exact absurd h' (by simp [recursionInternal])
      | succ n ih =>
        intro bb pairs tps t' h'
        rw [recursionInternal] at h'
        by_cases hlen : pairs.length < 10
        · rw [if_pos hlen] at h'
          obtain rfl := (Option.some.injEq _ _).mp h'
          rfl
        · rw [if_neg hlen] at h'
          dsimp only at h'
          rcases hsplit : bb.split bb.largestDim
              (getMedian bb.largestDim (pairs.map fun p => p.2)) with _ | ⟨lbb, rbb⟩ <;>
            rw [hsplit] at h'
          · exact absurd h' (by simp)
          · dsimp only at h'
            rcases hl : recursionInternal mesh n lbb
                (leftVertices pairs bb.largestDim
                  (getMedian bb.largestDim (pairs.map fun p => p.2)))
                (filterTriangles mesh lbb tps) with _ | tl <;> rw [hl] at h'
            · exact absurd h' (by simp)
            · rcases hr : recursionInternal mesh n rbb
                  (rightVertices pairs bb.largestDim
                    (getMedian bb.largestDim (pairs.map fun p => p.2)))
                  (filterTriangles mesh rbb tps) with _ | tr <;> rw [hr] at h'
              · exact absurd h' (by simp)
              · dsimp only at h'
                obtain rfl := (Option.some.injEq _ _).mp h'
                show (wellFormedB tl && wellFormedB tr) = true
                rw [ih lbb _ _ tl hl, ih rbb _ _ tr hr]; rfl
    rw [fromMesh] at h
    rcases hbb : AxisAlignedBoundingBox.new mesh.vertices with _ | bb <;>
      rw [hbb] at h
    · exact absurd h (by simp)
    · exact main fuel bb _ _ t h
  refine ⟨hwf, fun ib hib n => emit_ne_none ib hib n _ fun e he => ?_⟩
  rw [newIter] at he
  cases hi : ib t with
  | none => rw [hi] at he; exact absurd he (by simp)
  | some i =>
    rw [hi] at he
    obtain rfl := List.mem_singleton.mp he
    rw [hib t e hi]; exact hwf

/-- Witness for C9 on the 15-point tree with a concrete ray query. -/
theorem C9_node_shape_witness :
    wellFormedB c2Tree = true ∧
    emit (rayIntersector c2Ray) 3 (newIter (rayIntersector c2Ray) c2Tree) ≠
      none := by
  have h := C9_node_shape c2Mesh 6 c2Tree (by with_unfolding_all rfl)
  exact ⟨h.1, h.2 (rayIntersector c2Ray) (rayIntersector_node c2Ray) 3⟩

/-! ### C10: triangle queries carry the constant sentinel distance 1.0 -/

/-- The triangle intersector only ever reports distance `1`. -/
theorem triangleIntersector_dist (t0 t1 t2 nrm : Vec3) :
    ∀ node bi, triangleIntersector t0 t1 t2 nrm node = some bi →
      bi.distance = 1 := by
  intro node bi h
  have h' : (match node.boundingBox.intersectTriangle t0 t1 t2 (some nrm) with
      | true => some { distance := 1, node := node }
      | false => (none : Option BoxIntersect)) = some bi := h
  cases hx : node.boundingBox.intersectTriangle t0 t1 t2 (some nrm) with
  | false => rw [hx] at h'; exact absurd h' (by simp)
  | true => rw [hx] at h'; obtain rfl := (Option.some.injEq _ _).mp h'; rfl

/-- Every item emitted from a frontier of distance-1 entries by an
intersector that only produces distance-1 entries has distance 1. -/
theorem emit_all_distance_one (ib : BoxIntersector)
    (hib : ∀ node bi, ib node = some bi → bi.distance = 1) :
    ∀ n heap l, (∀ e ∈ heap, e.distance = 1) →
      emit ib n heap = some l → ∀ e ∈ l, e.distance = 1 := by
  intro n
  induction n with
  | zero =>
    intro heap l _ h e he
    rw [emit] at h
    obtain rfl := (Option.some.injEq _ _).mp h
    exact absurd he (by simp)
  | succ m ih =>
    intro heap l hwf h e he
    rw [emit, iterNext] at h
    cases hp : popMin heap with
    | none =>
      rw [hp] at h
      dsimp only at h
      obtain rfl := (Option.some.injEq _ _).mp h
      exact absurd he (by simp)
    | some pr =>
      obtain ⟨cur, rest⟩ := pr
      rw [hp] at h
      dsimp only at h
      obtain ⟨hcur, hrest⟩ := popMin_mem heap cur rest hp
      have hcd := hwf cur hcur
      have hrd : ∀ x ∈ rest, x.distance = 1 := fun x hx => hwf x (hrest x hx)
      have step : ∀ rest' : List BoxIntersect,
          (∀ x ∈ rest', x.distance = 1) →
          (match emit ib m rest' with
            | none => none
            | some tail => some (cur :: tail)) = some l →
          ∀ e ∈ l, e.distance = 1 := by
        intro rest' hr' h'
        cases ht : emit ib m rest' with
        | none => rw [ht] at h'; exact absurd h' (by simp)
        | some tail =>
          rw [ht] at h'
          dsimp only at h'
          obtain rfl := (Option.some.injEq _ _).mp h'
          intro e' he'
          rcases List.mem_cons.mp he' with rfl | he'
          · exact hcd
          · exact ih rest' tail hr' ht e' he'
      by_cases hleaf : cur.node.isLeaf
      · rw [if_pos hleaf] at h
        dsimp only at h
        exact step rest hrd h e he
      · rw [if_neg hleaf] at h
        cases hL : cur.node.left with
        | none =>
          rw [hL] at h
          cases hR : cur.node.right <;> rw [hR] at h <;>
            dsimp only at h <;> exact absurd h (by simp)
        | some lc =>
          rw [hL] at h
          cases hR : cur.node.right with
          | none =>
            rw [hR] at h
            dsimp only at h
            exact absurd h (by simp)
          | some rc =>
            rw [hR] at h
            dsimp only at h
            cases hil : ib lc with
            | none =>
              rw [hil] at h
              cases hir : ib rc with
              | none =>
                rw [hir] at h
                dsimp only at h
                obtain rfl := (Option.some.injEq _ _).mp h
                exact absurd he (by simp)
              | some iRight =>
                rw [hir] at h
                dsimp only at h
                refine step (rest ++ [iRight]) (fun x hx => ?_) h e he
                rcases List.mem_append.mp hx with hx | hx
                · exact hrd x hx
                · obtain rfl := List.mem_singleton.mp hx
                  exact hib rc x hir
            | some iLeft =>
              rw [hil] at h
              cases hir : ib rc with
              | none =>
                rw [hir] at h
                dsimp only at h
                refine step (rest ++ [iLeft]) (fun x hx => ?_) h e he
                rcases List.mem_append.mp hx with hx | hx
                · exact hrd x hx
                · obtain rfl := List.mem_singleton.mp hx
                  exact hib lc x hil
              | some iRight =>
                rw [hir] at h
                dsimp only at h
                refine step (rest ++ [iLeft] ++ [iRight]) (fun x hx => ?_) h e he
                rcases List.mem_append.mp hx with hx | hx
                · rcases List.mem_append.mp hx with hx | hx
                  · exact hrd x hx
                  · obtain rfl := List.mem_singleton.mp hx
                    exact hib lc x hil
                · obtain rfl := List.mem_singleton.mp hx
                  exact hib rc x hir

/-- C10: every `BoxIntersect` produced by a triangle-query traversal carries
the constant sentinel distance `1.0`, so the priority ordering conveys no
geometric information: all pending nodes compare equal. -/
theorem C10_triangle_query_distance_sentinel (t0 t1 t2 nrm : Vec3)
    (tree : KdTree) (n : ℕ) (l : List BoxIntersect)
    (h : emit (triangleIntersector t0 t1 t2 nrm) n
        (newIter (triangleIntersector t0 t1 t2 nrm) tree) = some l) :
    ∀ e ∈ l, e.distance = 1 := by
  refine emit_all_distance_one _ (triangleIntersector_dist t0 t1 t2 nrm) n _ l
    (fun e he => ?_) h
  rw [newIter] at he
  cases hi : triangleIntersector t0 t1 t2 nrm tree with
  | none => rw [hi] at he; exact absurd he (by simp)
  | some i =>
    rw [hi] at he
    obtain rfl := List.mem_singleton.mp he
    exact triangleIntersector_dist t0 t1 t2 nrm tree e hi

/-- The result list of a concrete triangle query on the 15-point tree. -/
def c10List : List BoxIntersect :=
  (emit (triangleIntersector (v3 1 1 1) (v3 2 1 1) (v3 1 2 1) (v3 0 0 1))
      9 (newIter (triangleIntersector (v3 1 1 1) (v3 2 1 1) (v3 1 2 1)
        (v3 0 0 1)) c2Tree)).getD []

/-- Witness for C10 on a concrete triangle query. -/
theorem C10_triangle_query_distance_sentinel_witness :
    emit (triangleIntersector (v3 1 1 1) (v3 2 1 1) (v3 1 2 1) (v3 0 0 1))
        9 (newIter (triangleIntersector (v3 1 1 1) (v3 2 1 1) (v3 1 2 1)
          (v3 0 0 1)) c2Tree) = some c10List ∧
    ∀ e ∈ c10List, e.distance = 1 := by
  have hh : emit (triangleIntersector (v3 1 1 1) (v3 2 1 1) (v3 1 2 1)
      (v3 0 0 1)) 9 (newIter (triangleIntersector (v3 1 1 1) (v3 2 1 1)
        (v3 1 2 1) (v3 0 0 1)) c2Tree) = some c10List := by
    with_unfolding_all rfl
  exact ⟨hh, C10_triangle_query_distance_sentinel (v3 1 1 1) (v3 2 1 1)
    (v3 1 2 1) (v3 0 0 1) c2Tree 9 c10List hh⟩

end RayRuster
